import Mathlib

/-!
# PersonalAssistantAI — calendar aggregation / conflict / credential engine

Shallow embedding of the parts of the PersonalAssistantAI repository that the
verified claims are about.

The repository's `src/` tree contains only the Next.js frontend (pages,
the zustand auth store, the `apiFetch` helper and the TypeScript types).
The backend engine described by the specification (Aggregator, Conflict
Detector, Credential Store, Provider Adapters, Meeting Response State
Machine) is not part of `src/`; where a claim is decided by that missing
engine code, the corresponding definition below is modelled from the
specification's own algorithm description and is marked
`Modelled from the spec:` in its doc comment.  Frontend functions
(`handleRespond`, `handleScheduleSubmit`, `apiFetch`, the auth store) are
translated directly from the TypeScript source.
-/

namespace PAAI

/-- The canonical RSVP status enum
(`needs_action | accepted | declined | tentative`, spec §3;
`my_response` in `src/frontend/src/types/calendar.ts`). -/
inductive MyResponse where
  | needsAction
  | accepted
  | declined
  | tentative
deriving DecidableEq, Repr

/-- Modelled from the spec: the provider-agnostic `CanonicalEvent` of §3,
restricted to the fields the verified claims mention.  Instants are
modelled as natural numbers (`start`/`stop` timestamps); `stop` models the
spec's `end` field (`end` is a Lean keyword). -/
structure CanonicalEvent where
  provider : String
  title : String
  start : Nat
  stop : Nat
  myResponse : MyResponse
deriving DecidableEq, Repr

/-- Modelled from the spec: the raw status classification of a
`ProviderError` (§3). -/
inductive ProviderErrorKind where
  | authExpired
  | rateLimited
  | unavailable
  | forbidden
  | unknown
deriving DecidableEq, Repr

/-- Modelled from the spec: `ProviderError` — provider identifier +
human-readable cause + raw status classification (§3). -/
structure ProviderError where
  provider : String
  cause : String
  kind : ProviderErrorKind
deriving DecidableEq, Repr

/-! ## Aggregator (spec §4.3) -/

/-- Modelled from the spec: the result shape of `fetch_unified`
(§4.3, and `EventsResponse` in `src/frontend/src/types/calendar.ts`):
a unified event list plus a per-provider error list. -/
structure AggResult where
  events : List CanonicalEvent
  errors : List ProviderError
deriving DecidableEq, Repr

/-- Modelled from the spec: the outcome of one Provider Adapter's
`fetch_events` call — either a list of canonical events or one
`ProviderError` (§4.1). -/
abbrev FetchOutcome : Type := Except ProviderError (List CanonicalEvent)

/-- The events contributed by one fetch outcome: a failed provider is
simply absent from `events` (§4.3). -/
def okEvents : FetchOutcome → List CanonicalEvent
  | .ok l => l
  | .error _ => []

/-- The error contributed by one fetch outcome, if any. -/
def errPart : FetchOutcome → Option ProviderError
  | .ok _ => none
  | .error e => some e

/-- The aggregator's sort order: start ascending, ties broken
lexicographically by title (§4.3). -/
def aggRel : CanonicalEvent → CanonicalEvent → Prop := fun a b =>
  a.start < b.start ∨ (a.start = b.start ∧ a.title ≤ b.title)

instance : DecidableRel aggRel := fun a b =>
  inferInstanceAs (Decidable (a.start < b.start ∨ (a.start = b.start ∧ a.title ≤ b.title)))

instance : IsTotal CanonicalEvent aggRel where
  total a b := by
    unfold aggRel
    rcases Nat.lt_trichotomy a.start b.start with h | h | h
    · exact Or.inl (Or.inl h)
    · rcases le_total a.title b.title with ht | ht
      · exact Or.inl (Or.inr ⟨h, ht⟩)
      · exact Or.inr (Or.inr ⟨h.symm, ht⟩)
    · exact Or.inr (Or.inl h)

instance : IsTrans CanonicalEvent aggRel where
  trans a b c hab hbc := by
    unfold aggRel at *
    rcases hab with h1 | ⟨e1, t1⟩
    · rcases hbc with h2 | ⟨e2, _⟩
      · exact Or.inl (h1.trans h2)
      · exact Or.inl (e2 ▸ h1)
    · rcases hbc with h2 | ⟨e2, t2⟩
      · exact Or.inl (e1 ▸ h2)
      · exact Or.inr ⟨e1.trans e2, t1.trans t2⟩

/-- Modelled from the spec: §4.3
`fetch_unified(user, window) -> {events: [CanonicalEvent] sorted by start
ascending then title, errors: [ProviderError]}` — merges the per-provider
outcomes, keeping every successful provider's events and collecting every
failed provider's error; the function is total, so partial provider
failure never aborts the call. -/
def fetchUnified (results : List FetchOutcome) : AggResult :=
  { events := List.insertionSort aggRel (results.map okEvents).flatten
    errors := results.filterMap errPart }

/-! ## Conflict Detector (spec §4.4) -/

/-- The conflict sweep's sort order: start ascending (§4.4). -/
def startRel : CanonicalEvent → CanonicalEvent → Prop := fun a b =>
  a.start ≤ b.start

instance : DecidableRel startRel := fun a b =>
  inferInstanceAs (Decidable (a.start ≤ b.start))

instance : IsTotal CanonicalEvent startRel where
  total a b := Nat.le_total a.start b.start

instance : IsTrans CanonicalEvent startRel where
  trans _ _ _ hab hbc := Nat.le_trans hab hbc

/-- Modelled from the spec: the caller's exclusion policy (§4.4) —
default policy (`excludeDeclined = true`) discards events whose
`my_response == declined`; the alternate policy keeps them. -/
def keepByPolicy (excludeDeclined : Bool) (events : List CanonicalEvent) :
    List CanonicalEvent :=
  if excludeDeclined then
    events.filter (fun e => e.myResponse != MyResponse.declined)
  else events

/-- Modelled from the spec: the interval-clustering sweep of §4.4 over the
start-sorted remainder.  `cluster` is the active cluster (reversed) and
`m` the running maximum end time; an event starts a new cluster when its
start is `>=` the running max end, otherwise it joins the active cluster
and extends the running max end. -/
def sweepAux : List CanonicalEvent → List CanonicalEvent → Nat →
    List (List CanonicalEvent)
  | [], cluster, _ => [cluster.reverse]
  | e :: rest, cluster, m =>
    if m ≤ e.start then
      cluster.reverse :: sweepAux rest [e] e.stop
    else
      sweepAux rest (e :: cluster) (max m e.stop)

/-- The clusters the sweep produces on a start-sorted list: the first
event opens the first cluster with its end as the running max end. -/
def clustersOf : List CanonicalEvent → List (List CanonicalEvent)
  | [] => []
  | e :: rest => sweepAux rest [e] e.stop

/-- The groups emitted for an already-policy-filtered event list: sort by
start ascending, sweep, and keep clusters with two or more members
(§4.4). -/
def conflictGroups (l : List CanonicalEvent) : List (List CanonicalEvent) :=
  (clustersOf (List.insertionSort startRel l)).filter (fun g => 2 ≤ g.length)

/-- Modelled from the spec: §4.4 `find_conflicts(events) -> [ConflictGroup]` —
discard events the policy excludes, sort the rest by start ascending, run
the interval-clustering sweep, and emit clusters with two or more members
as ConflictGroups (each group here is its member list). -/
def findConflicts (excludeDeclined : Bool) (events : List CanonicalEvent) :
    List (List CanonicalEvent) :=
  conflictGroups (keepByPolicy excludeDeclined events)

/-- Two events overlap in time: `A.start < B.end && B.start < A.end`
(spec §8). -/
def overlaps (a b : CanonicalEvent) : Prop :=
  a.start < b.stop ∧ b.start < a.stop

instance : ∀ a b, Decidable (overlaps a b) := fun a b =>
  inferInstanceAs (Decidable (a.start < b.stop ∧ b.start < a.stop))

/-- `Linked g a b`: events `a` and `b` are connected by a chain of
pairwise-overlapping events all belonging to the group `g` (the spec's
transitive clustering, §3 and §4.4). -/
def Linked (g : List CanonicalEvent) (a b : CanonicalEvent) : Prop :=
  Relation.ReflTransGen (fun x y => y ∈ g ∧ overlaps x y) a b

/-! ## Frontend: TypeScript types (`src/frontend/src/types/calendar.ts`,
given as `src/unnamed/part_001`) -/

/-- `Attendee` from the frontend calendar types. -/
structure Attendee where
  email : String
  name : String
  response : String
  is_self : Bool
deriving DecidableEq, Repr

/-- `CalendarEvent` from the frontend calendar types, field for field
(`end` is a Lean keyword and is embedded as `stop`; `my_response` is a
union of string literals in TypeScript and is embedded as `String`).
Note the interface has no version/etag field. -/
structure CalendarEvent where
  id : String
  provider : String
  title : String
  description : String
  location : String
  start : String
  stop : String
  timezone : String
  is_all_day : Bool
  status : String
  organizer_name : String
  organizer_email : String
  is_organizer : Bool
  my_response : String
  attendees : List Attendee
  html_link : String
  meeting_link : String
deriving DecidableEq, Repr

/-! ## Frontend: meetings page
(`src/frontend/src/app/dashboard/meetings/page.tsx`) -/

/-- The JSON body `handleRespond` sends to
`POST /api/calendar/events/respond`:
`JSON.stringify({ provider: selectedMeeting.provider,
event_id: selectedMeeting.id, response })`, embedded as the ordered list
of key/value pairs of the serialized object. -/
def handleRespondBody (selectedMeeting : CalendarEvent) (response : String) :
    List (String × String) :=
  [("provider", selectedMeeting.provider),
   ("event_id", selectedMeeting.id),
   ("response", response)]

/-- The schedule-meeting form state (`ScheduleForm` in the meetings page). -/
structure ScheduleForm where
  title : String
  provider : String
  date : String
  startTime : String
  endTime : String
  location : String
  description : String
  attendees : List String
deriving DecidableEq, Repr

/-- The JSON body `handleScheduleSubmit` sends to
`POST /api/calendar/events` when validation passes
(`end` embedded as `stop`). -/
structure CreateEventBody where
  provider : String
  title : String
  start : String
  stop : String
  description : String
  location : String
  attendees : List String
  timezone : String
deriving DecidableEq, Repr

/-- Outcome of `handleScheduleSubmit`: either the form is rejected with a
validation message (`setScheduleError(...); return;` — no network call is
made), or the network request with the given body is issued. -/
inductive ScheduleOutcome where
  | rejected (message : String)
  | request (body : CreateEventBody)
deriving DecidableEq, Repr

/-- `handleScheduleSubmit` from the meetings page: the validation chain
runs before the `apiFetch` call, in source order; JavaScript string
comparison `startTime >= endTime` is embedded as `f.endTime ≤ f.startTime`
on Lean strings (both are lexicographic and the inputs are `HH:MM`
ASCII).  `tz` is the browser timezone. -/
def handleScheduleSubmit (f : ScheduleForm) (tz : String) : ScheduleOutcome :=
  if f.title.trim = "" then .rejected "Meeting title is required"
  else if f.date = "" then .rejected "Date is required"
  else if f.startTime = "" ∨ f.endTime = "" then
    .rejected "Start and end times are required"
  else if f.endTime ≤ f.startTime then
    .rejected "End time must be after start time"
  else if f.attendees = [] then
    .rejected "Please add at least one attendee"
  else
    .request
      { provider := f.provider
        title := f.title.trim
        start := f.date ++ "T" ++ f.startTime ++ ":00"
        stop := f.date ++ "T" ++ f.endTime ++ ":00"
        description := f.description.trim
        location := f.location.trim
        attendees := f.attendees
        timezone := tz }

/-! ## Frontend: `apiFetch` (`src/lib/api.ts`, given as
`src/unnamed/part_004`) -/

/-- The `ApiError` class: HTTP status plus message. -/
structure ApiError where
  status : Nat
  message : String
deriving DecidableEq, Repr

/-- An HTTP response as `apiFetch` observes it.  `body` models the result
of `response.json()`: `none` when the body does not parse as JSON (the
promise rejects), `some d` when it parses, with `d` its string `detail`
field when it has one (`d = none` when the parsed value has no string
`detail` field). -/
structure HttpResponse where
  ok : Bool
  status : Nat
  body : Option (Option String)
deriving DecidableEq, Repr

/-- The message of the thrown `ApiError`:
`const error = await response.json().catch(() => ({ detail: "Request failed" }));`
then `error.detail || "Request failed"` — a missing or falsy (empty)
`detail` falls back to `"Request failed"`. -/
def apiFetchMessage (body : Option (Option String)) : String :=
  match body with
  | none => "Request failed"
  | some none => "Request failed"
  | some (some d) => if d = "" then "Request failed" else d

/-- `apiFetch`: returns the parsed body when `response.ok`, otherwise
throws `ApiError(response.status, error.detail || "Request failed")`. -/
def apiFetch (resp : HttpResponse) : Except ApiError (Option (Option String)) :=
  if resp.ok then .ok resp.body
  else .error { status := resp.status, message := apiFetchMessage resp.body }

/-! ## Frontend: auth store (`src/frontend/src/stores/auth-store.ts`) -/

/-- The `User` interface of the auth store. -/
structure User where
  id : String
  email : String
  full_name : String
  google_connected : Bool
  microsoft_connected : Bool
deriving DecidableEq, Repr

/-- `Partial<User>`: every field optional, as passed to `updateUser`. -/
structure UserUpdates where
  id : Option String := none
  email : Option String := none
  full_name : Option String := none
  google_connected : Option Bool := none
  microsoft_connected : Option Bool := none
deriving DecidableEq, Repr

/-- The spread `{ ...state.user, ...updates }`: each field present in
`updates` overrides the current one. -/
def mergeUser (u : User) (updates : UserUpdates) : User :=
  { id := updates.id.getD u.id
    email := updates.email.getD u.email
    full_name := updates.full_name.getD u.full_name
    google_connected := updates.google_connected.getD u.google_connected
    microsoft_connected := updates.microsoft_connected.getD u.microsoft_connected }

/-- The auth store's state triple. -/
structure AuthState where
  user : Option User
  accessToken : Option String
  isAuthenticated : Bool
deriving DecidableEq, Repr

/-- The store's initial state:
`user: null, accessToken: null, isAuthenticated: false`. -/
def authInitial : AuthState :=
  { user := none, accessToken := none, isAuthenticated := false }

/-- The three mutating operations the store exposes. -/
inductive AuthOp where
  | setAuth (user : User) (accessToken : String)
  | clearAuth
  | updateUser (updates : UserUpdates)
deriving DecidableEq, Repr

/-- One `set(...)` call of the store: `setAuth` stores the user and token
and sets `isAuthenticated: true`; `clearAuth` resets all three;
`updateUser` merges into the current user when present
(`state.user ? { ...state.user, ...updates } : null`) and leaves
`accessToken` and `isAuthenticated` unchanged. -/
def applyAuthOp (s : AuthState) : AuthOp → AuthState
  | .setAuth u t => { user := some u, accessToken := some t, isAuthenticated := true }
  | .clearAuth => { user := none, accessToken := none, isAuthenticated := false }
  | .updateUser updates => { s with user := s.user.map (fun u => mergeUser u updates) }

/-- The state reached from the initial state by a sequence of store
operations. -/
def runAuthOps (ops : List AuthOp) : AuthState :=
  ops.foldl applyAuthOp authInitial

/-- The claimed invariant: `isAuthenticated` holds exactly when
`accessToken` is non-null, and exactly when `user` is non-null. -/
def authInvariant (s : AuthState) : Prop :=
  (s.isAuthenticated = true ↔ s.accessToken ≠ none) ∧
  (s.isAuthenticated = true ↔ s.user ≠ none)

/-! ## Helper lemmas -/

/-- Each store operation preserves the auth invariant. -/
lemma authInvariant_applyAuthOp (s : AuthState) (op : AuthOp)
    (h : authInvariant s) : authInvariant (applyAuthOp s op) := by
  cases op with
  | setAuth u t => simp [applyAuthOp, authInvariant]
  | clearAuth => simp [applyAuthOp, authInvariant]
  | updateUser updates =>
    obtain ⟨h1, h2⟩ := h
    refine ⟨h1, ?_⟩
    simpa [applyAuthOp, Option.map_eq_none'] using h2

/-- Folding store operations from an invariant-satisfying state keeps the
invariant. -/
lemma authInvariant_foldl (ops : List AuthOp) :
    ∀ s : AuthState, authInvariant s → authInvariant (ops.foldl applyAuthOp s) := by
  induction ops with
  | nil => intro s h; exact h
  | cons op rest ih =>
    intro s h
    exact ih _ (authInvariant_applyAuthOp s op h)

/-! ## Claim theorems -/

/-- **C10.** The auth store preserves the invariant that `isAuthenticated`
is true iff `accessToken` is non-null, and iff `user` is non-null: it
holds in the initial state and after any sequence of `setAuth`,
`clearAuth` and `updateUser` operations. -/
theorem auth_store_invariant :
    authInvariant authInitial ∧
    ∀ ops : List AuthOp, authInvariant (runAuthOps ops) := by
  constructor
  · simp [authInvariant, authInitial]
  · intro ops
    exact authInvariant_foldl ops authInitial (by simp [authInvariant, authInitial])

/-- A concrete meeting, used to instantiate frontend claims. -/
def demoMeeting : CalendarEvent :=
  { id := "evt-1"
    provider := "google"
    title := "Board sync"
    description := ""
    location := ""
    start := "2026-10-12T09:00:00Z"
    stop := "2026-10-12T10:00:00Z"
    timezone := "UTC"
    is_all_day := false
    status := "confirmed"
    organizer_name := "Dean"
    organizer_email := "dean@university.edu"
    is_organizer := false
    my_response := "needsAction"
    attendees := []
    html_link := ""
    meeting_link := "" }

/-- **C1 (counterexample).** The response-update request `handleRespond`
issues for a concrete meeting carries exactly the keys `provider`,
`event_id` and `response` — no `expected_version` (and no version key of
any kind), refuting the claim that every response update is submitted
with the event's last-seen version. -/
theorem respond_body_no_version_cex :
    (handleRespondBody demoMeeting "accepted").map Prod.fst =
      ["provider", "event_id", "response"] ∧
    "expected_version" ∉ (handleRespondBody demoMeeting "accepted").map Prod.fst := by
  decide

/-- **C1 (amended).** For every meeting and response, the request body
`handleRespond` sends carries exactly the keys `provider`, `event_id` and
`response`; the client never submits an `expected_version` (the
client-side `CalendarEvent` type has no version/etag field at all). -/
theorem respond_body_keys (m : CalendarEvent) (response : String) :
    (handleRespondBody m response).map Prod.fst =
      ["provider", "event_id", "response"] :=
  rfl

/-- **C8.** Every schedule-submit whose time window is malformed
(`startTime >= endTime` in the source's string comparison, i.e.
`endTime ≤ startTime`) is rejected with a validation message; no network
request body is produced (the `apiFetch` call is only reached in the
`request` branch). -/
theorem schedule_submit_rejects_malformed_window
    (f : ScheduleForm) (tz : String) (h : f.endTime ≤ f.startTime) :
    ∃ message, handleScheduleSubmit f tz = ScheduleOutcome.rejected message := by
  unfold handleScheduleSubmit
  split_ifs <;> exact ⟨_, rfl⟩

/-- A concrete schedule form with a malformed window (start 10:00, end
09:00). -/
def demoBadForm : ScheduleForm :=
  { title := "Budget review"
    provider := "google"
    date := "2026-10-13"
    startTime := "10:00"
    endTime := "09:00"
    location := ""
    description := ""
    attendees := ["cfo@university.edu"] }

/-- **C8 (witness).** The malformed-window rejection at a concrete form. -/
theorem schedule_submit_rejects_malformed_window_witness :
    ∃ message, handleScheduleSubmit demoBadForm "UTC" =
      ScheduleOutcome.rejected message :=
  schedule_submit_rejects_malformed_window demoBadForm "UTC"
    (String.le_iff_toList_le.mpr (by decide))

/-- **C9 (counterexample).** A non-ok response whose body parses as JSON
and has a `detail` field equal to `""` is thrown as
`ApiError(500, "Request failed")`, not with the detail field as message
(JavaScript `error.detail || "Request failed"` treats the empty string as
falsy), refuting the claim as stated. -/
theorem apiFetch_empty_detail_cex :
    apiFetch { ok := false, status := 500, body := some (some "") } =
      Except.error { status := 500, message := "Request failed" } ∧
    ("Request failed" : String) ≠ "" := by
  exact ⟨rfl, by decide⟩

/-- **C9 (amended).** `apiFetch` returns normally only when the response
is ok; every non-ok response is thrown as an `ApiError` whose status is
the response's status code and whose message is the body's `detail` field
when the body parses as JSON and has a non-empty one, and
`"Request failed"` otherwise (parse failure, missing detail, or empty
detail). -/
theorem apiFetch_error_contract (resp : HttpResponse) :
    (∀ v, apiFetch resp = Except.ok v → resp.ok = true) ∧
    (resp.ok = false → ∃ e : ApiError,
      apiFetch resp = Except.error e ∧
      e.status = resp.status ∧
      (∀ d, resp.body = some (some d) → d ≠ "" → e.message = d) ∧
      ((resp.body = none ∨ resp.body = some none ∨ resp.body = some (some "")) →
        e.message = "Request failed")) := by
  constructor
  · intro v hv
    by_contra hok
    have hfalse : resp.ok = false := by
      cases h : resp.ok
      · rfl
      · exact absurd h hok
    simp [apiFetch, hfalse] at hv
  · intro hok
    refine ⟨{ status := resp.status, message := apiFetchMessage resp.body },
      by simp [apiFetch, hok], rfl, ?_, ?_⟩
    · intro d hd hne
      simp [apiFetchMessage, hd, hne]
    · rintro (h | h | h) <;> simp [apiFetchMessage, h]

/-- **C9 (witness).** The amended error contract at a concrete 404
response carrying `detail: "Not found"`. -/
theorem apiFetch_error_contract_witness :
    ∃ e : ApiError,
      apiFetch { ok := false, status := 404, body := some (some "Not found") } =
        Except.error e ∧ e.status = 404 ∧ e.message = "Not found" := by
  obtain ⟨-, h⟩ :=
    apiFetch_error_contract { ok := false, status := 404, body := some (some "Not found") }
  obtain ⟨e, he, hs, hd, -⟩ := h rfl
  exact ⟨e, he, hs, hd "Not found" rfl (by decide)⟩

/-! ## Helper lemmas for the conflict sweep and the aggregator -/

/-- Every member of a cluster the sweep emits comes from the active
cluster or from the remaining input. -/
lemma mem_of_mem_sweepAux :
    ∀ (rest cluster : List CanonicalEvent) (m : Nat)
      (g : List CanonicalEvent), g ∈ sweepAux rest cluster m →
      ∀ e ∈ g, e ∈ cluster ∨ e ∈ rest := by
  intro rest
  induction rest with
  | nil =>
    intro cluster m g hg e he
    simp only [sweepAux, List.mem_singleton] at hg
    subst hg
    exact Or.inl (List.mem_reverse.mp he)
  | cons x rest ih =>
    intro cluster m g hg e he
    simp only [sweepAux] at hg
    split_ifs at hg with hcond
    · rcases List.mem_cons.mp hg with hg | hg
      · subst hg
        exact Or.inl (List.mem_reverse.mp he)
      · rcases ih [x] x.stop g hg e he with h | h
        · exact Or.inr (List.mem_cons.mpr (Or.inl (List.mem_singleton.mp h)))
        · exact Or.inr (List.mem_cons_of_mem _ h)
    · rcases ih (x :: cluster) (max m x.stop) g hg e he with h | h
      · rcases List.mem_cons.mp h with h | h
        · exact Or.inr (List.mem_cons.mpr (Or.inl h))
        · exact Or.inl h
      · exact Or.inr (List.mem_cons_of_mem _ h)

/-- Every member of a cluster comes from the swept list. -/
lemma mem_of_mem_clustersOf {l : List CanonicalEvent}
    {g : List CanonicalEvent} (hg : g ∈ clustersOf l)
    {e : CanonicalEvent} (he : e ∈ g) : e ∈ l := by
  cases l with
  | nil => simp [clustersOf] at hg
  | cons x rest =>
    rcases mem_of_mem_sweepAux rest [x] x.stop g hg e he with h | h
    · exact List.mem_cons.mpr (Or.inl (List.mem_singleton.mp h))
    · exact List.mem_cons_of_mem _ h

/-- The policy filter only discards events. -/
lemma mem_of_mem_keepByPolicy {b : Bool} {events : List CanonicalEvent}
    {e : CanonicalEvent} (h : e ∈ keepByPolicy b events) : e ∈ events := by
  unfold keepByPolicy at h
  split_ifs at h
  · exact List.mem_of_mem_filter h
  · exact h

/-- Under the default policy the filtered list has no declined event. -/
lemma keepByPolicy_true_not_declined {events : List CanonicalEvent}
    {e : CanonicalEvent} (h : e ∈ keepByPolicy true events) :
    e.myResponse ≠ MyResponse.declined := by
  unfold keepByPolicy at h
  rw [if_pos rfl] at h
  have := List.of_mem_filter h
  simpa using this

/-- Every member of a conflict group comes from the filtered input. -/
lemma mem_of_mem_findConflicts {b : Bool} {events : List CanonicalEvent}
    {g : List CanonicalEvent} (hg : g ∈ findConflicts b events)
    {e : CanonicalEvent} (he : e ∈ g) : e ∈ keepByPolicy b events := by
  unfold findConflicts conflictGroups at hg
  have hg' := List.mem_of_mem_filter hg
  have := mem_of_mem_clustersOf hg' he
  rw [List.mem_insertionSort] at this
  exact this

/-- `conflictGroups` of the empty list is empty. -/
lemma conflictGroups_nil : conflictGroups [] = [] := rfl

/-- A single event never forms a conflict group. -/
lemma conflictGroups_singleton (x : CanonicalEvent) :
    conflictGroups [x] = [] := rfl

/-- Two events where the first ends exactly when (or before) the second
starts form no conflict group: the sweep opens a new cluster at the
boundary. -/
lemma conflictGroups_touching_pair (C D : CanonicalEvent)
    (h1 : C.start < C.stop) (h2 : C.stop ≤ D.start) :
    conflictGroups [C, D] = [] := by
  have hCD : startRel C D := le_of_lt (Nat.lt_of_lt_of_le h1 h2)
  unfold conflictGroups
  have hsort : List.insertionSort startRel [C, D] = [C, D] := by
    simp only [List.insertionSort, List.orderedInsert]
    rw [if_pos hCD]
  rw [hsort]
  show (sweepAux [D] [C] C.stop).filter _ = []
  simp only [sweepAux]
  rw [if_pos h2]
  rfl

/-- A long accepted event spanning the morning. -/
def demoSpanA : CanonicalEvent :=
  { provider := "google", title := "Offsite", start := 0, stop := 10,
    myResponse := MyResponse.accepted }

/-- An accepted event ending at instant 3. -/
def demoTouchC : CanonicalEvent :=
  { provider := "google", title := "Standup", start := 1, stop := 3,
    myResponse := MyResponse.accepted }

/-- An accepted event starting at instant 3 — touching `demoTouchC`. -/
def demoTouchD : CanonicalEvent :=
  { provider := "microsoft", title := "Review", start := 3, stop := 5,
    myResponse := MyResponse.accepted }

/-- **C5 (counterexample).** Two touching events (`demoTouchC` ends at 3,
`demoTouchD` starts at 3) land in the same ConflictGroup when a third
event spans both: the sweep's cluster is transitive, so the claim that no
group ever contains two touching events is false. -/
theorem touching_events_same_group_cex :
    demoTouchC.stop = demoTouchD.start ∧
    ∃ g ∈ findConflicts true [demoSpanA, demoTouchC, demoTouchD],
      demoTouchC ∈ g ∧ demoTouchD ∈ g := by
  decide

/-- **C5 (amended).** Touching intervals alone never conflict: for every
policy and every two well-formed events `C`, `D` with `C.end == D.start`,
`find_conflicts` on the input consisting of exactly `C` and `D` returns
no ConflictGroup (the sweep starts a new cluster when an event's start is
`>=` the running maximum end); only a third event overlapping both can
place them in a common group. -/
theorem touching_events_alone_no_conflict (b : Bool) (C D : CanonicalEvent)
    (h1 : C.start < C.stop) (h2 : C.stop = D.start) :
    findConflicts b [C, D] = [] := by
  unfold findConflicts keepByPolicy
  cases b with
  | false =>
    rw [if_neg (by simp)]
    exact conflictGroups_touching_pair C D h1 (le_of_eq h2)
  | true =>
    rw [if_pos rfl]
    cases hC : (C.myResponse != MyResponse.declined) <;>
      cases hD : (D.myResponse != MyResponse.declined) <;>
        simp only [List.filter, hC, hD]
    · exact conflictGroups_nil
    · exact conflictGroups_singleton D
    · exact conflictGroups_singleton C
    · exact conflictGroups_touching_pair C D h1 (le_of_eq h2)

/-- **C5 (witness).** The amended statement at the two concrete touching
events. -/
theorem touching_events_alone_no_conflict_witness :
    findConflicts true [demoTouchC, demoTouchD] = [] :=
  touching_events_alone_no_conflict true demoTouchC demoTouchD
    (by decide) (by decide)

/-- An accepted event used in the policy demos. -/
def demoPolicyA : CanonicalEvent :=
  { provider := "google", title := "Budget", start := 0, stop := 10,
    myResponse := MyResponse.accepted }

/-- A tentative event overlapping `demoPolicyA`. -/
def demoPolicyB : CanonicalEvent :=
  { provider := "microsoft", title := "Parents", start := 5, stop := 15,
    myResponse := MyResponse.tentative }

/-- A declined event overlapping both policy-demo events. -/
def demoPolicyDeclined : CanonicalEvent :=
  { provider := "google", title := "Vendors", start := 2, stop := 12,
    myResponse := MyResponse.declined }

/-- The policy-demo input: two kept events and one declined event. -/
def demoPolicyEvents : List CanonicalEvent :=
  [demoPolicyA, demoPolicyB, demoPolicyDeclined]

/-- **C6.** Under the default policy `find_conflicts` excludes every
declined event before clustering — no declined event appears in any
returned ConflictGroup — and re-including declined events under the
alternate policy changes group membership (deterministically: the
detector is a pure function of its input), exhibited on a concrete
input. -/
theorem conflicts_exclude_declined :
    (∀ (events g : List CanonicalEvent) (e : CanonicalEvent),
      g ∈ findConflicts true events → e ∈ g →
      e.myResponse ≠ MyResponse.declined) ∧
    findConflicts false demoPolicyEvents ≠ findConflicts true demoPolicyEvents := by
  constructor
  · intro events g e hg he
    exact keepByPolicy_true_not_declined (mem_of_mem_findConflicts hg he)
  · decide

/-- **C6 (witness).** The exclusion property applied at a concrete input
whose default-policy output has a group. -/
theorem conflicts_exclude_declined_witness :
    demoPolicyA.myResponse ≠ MyResponse.declined :=
  conflicts_exclude_declined.1 demoPolicyEvents [demoPolicyA, demoPolicyB]
    demoPolicyA (by decide) (by decide)

/-- **C7.** For every list of provider outcomes, the unified event list
`fetch_unified` returns is sorted by start ascending with ties on equal
start instants broken lexicographically by title (`aggRel`); being a pure
function of the outcome list, the output order is deterministic for any
fixed set of provider results. -/
theorem fetch_unified_sorted (results : List FetchOutcome) :
    List.Sorted aggRel (fetchUnified results).events :=
  List.sorted_insertionSort aggRel _

/-- **C4.** Aggregation is total under partial provider failure: when one
provider fails with error `pe` and every other outcome is a success, the
returned `events` still contain every event of every successful provider,
and `errors` is exactly `[pe]` — one entry attributable to the failed
provider; the call itself returns a value (`fetchUnified` is a total
function) rather than raising. -/
theorem fetch_unified_partial_failure
    (pre post : List FetchOutcome) (pe : ProviderError)
    (hpre : ∀ o ∈ pre, errPart o = none)
    (hpost : ∀ o ∈ post, errPart o = none) :
    (fetchUnified (pre ++ Except.error pe :: post)).errors = [pe] ∧
    ∀ o ∈ pre ++ post, ∀ e ∈ okEvents o,
      e ∈ (fetchUnified (pre ++ Except.error pe :: post)).events := by
  constructor
  · show (pre ++ Except.error pe :: post).filterMap errPart = [pe]
    rw [List.filterMap_append, List.filterMap_cons]
    rw [List.filterMap_eq_nil_iff.mpr hpre, List.filterMap_eq_nil_iff.mpr hpost]
    rfl
  · intro o ho e he
    show e ∈ List.insertionSort aggRel _
    rw [List.mem_insertionSort, List.mem_flatten]
    refine ⟨okEvents o, List.mem_map_of_mem okEvents ?_, he⟩
    rcases List.mem_append.mp ho with h | h
    · exact List.mem_append.mpr (Or.inl h)
    · exact List.mem_append.mpr (Or.inr (List.mem_cons_of_mem _ h))

/-- A successful provider's event, for the aggregation witness. -/
def demoOkEvent : CanonicalEvent :=
  { provider := "google", title := "Faculty briefing", start := 900,
    stop := 960, myResponse := MyResponse.accepted }

/-- The failed provider's error, for the aggregation witness. -/
def demoProvErr : ProviderError :=
  { provider := "microsoft", cause := "HTTP 403", kind := ProviderErrorKind.forbidden }

/-- **C4 (witness).** Partial failure at a concrete pair of outcomes:
one successful provider and one failed provider. -/
theorem fetch_unified_partial_failure_witness :
    (fetchUnified [Except.ok [demoOkEvent], Except.error demoProvErr]).errors
      = [demoProvErr] ∧
    demoOkEvent ∈
      (fetchUnified [Except.ok [demoOkEvent], Except.error demoProvErr]).events := by
  obtain ⟨h1, h2⟩ :=
    fetch_unified_partial_failure [Except.ok [demoOkEvent]] [] demoProvErr
      (by intro o ho; rw [List.mem_singleton] at ho; subst ho; rfl)
      (by intro o ho; cases ho)
  exact ⟨h1, h2 (Except.ok [demoOkEvent]) (by simp) demoOkEvent (by simp [okEvents])⟩

/-- Chain-connectivity within a group only grows when the group grows. -/
lemma linked_mono {g g' : List CanonicalEvent}
    (hsub : ∀ x ∈ g, x ∈ g') {a b : CanonicalEvent}
    (h : Linked g a b) : Linked g' a b :=
  Relation.ReflTransGen.mono (fun _ _ hxy => ⟨hsub _ hxy.1, hxy.2⟩) h

/-- Invariant induction over the sweep: if the active cluster is
internally chain-connected, its running max end is attained by one of its
members, its members all start no later than every remaining event, and
the remaining events are start-sorted and well-formed, then every emitted
cluster is internally chain-connected. -/
lemma sweepAux_connected :
    ∀ (rest : List CanonicalEvent), List.Sorted startRel rest →
    ∀ (cluster : List CanonicalEvent) (m : Nat),
      (∀ x ∈ cluster, ∀ y ∈ rest, x.start ≤ y.start) →
      (∀ y ∈ rest, y.start < y.stop) →
      (∃ f ∈ cluster, f.stop = m) →
      (∀ a ∈ cluster, ∀ b ∈ cluster, Linked cluster a b) →
      ∀ g ∈ sweepAux rest cluster m, ∀ a ∈ g, ∀ b ∈ g, Linked g a b := by
  intro rest
  induction rest with
  | nil =>
    intro _ cluster m _ _ _ hconn g hg a ha b hb
    simp only [sweepAux, List.mem_singleton] at hg
    subst hg
    exact linked_mono (fun x hx => List.mem_reverse.mpr hx)
      (hconn a (List.mem_reverse.mp ha) b (List.mem_reverse.mp hb))
  | cons e rest ih =>
    intro hsorted cluster m hstart hwf hm hconn g hg a ha b hb
    rw [List.sorted_cons] at hsorted
    obtain ⟨he_rest, hsorted'⟩ := hsorted
    simp only [sweepAux] at hg
    by_cases hcond : m ≤ e.start
    · rw [if_pos hcond] at hg
      rcases List.mem_cons.mp hg with hg | hg
      · subst hg
        exact linked_mono (fun x hx => List.mem_reverse.mpr hx)
          (hconn a (List.mem_reverse.mp ha) b (List.mem_reverse.mp hb))
      · refine ih hsorted' [e] e.stop ?_ ?_
          ⟨e, List.mem_singleton_self e, rfl⟩ ?_ g hg a ha b hb
        · intro x hx y hy
          rw [List.mem_singleton] at hx
          subst hx
          exact he_rest y hy
        · intro y hy
          exact hwf y (List.mem_cons_of_mem _ hy)
        · intro a' ha' b' hb'
          rw [List.mem_singleton] at ha' hb'
          subst ha'
          subst hb'
          exact Relation.ReflTransGen.refl
    · rw [if_neg hcond] at hg
      push_neg at hcond
      obtain ⟨f, hf, hfm⟩ := hm
      have hfe_start : f.start ≤ e.start := hstart f hf e (List.mem_cons_self _ _)
      have hewf : e.start < e.stop := hwf e (List.mem_cons_self _ _)
      have hef : e.start < f.stop := lt_of_lt_of_eq hcond hfm.symm
      have hfe : f.start < e.stop := lt_of_le_of_lt hfe_start hewf
      have hsub : ∀ x ∈ cluster, x ∈ e :: cluster :=
        fun x hx => List.mem_cons_of_mem _ hx
      refine ih hsorted' (e :: cluster) (max m e.stop) ?_ ?_ ?_ ?_ g hg a ha b hb
      · intro x hx y hy
        rcases List.mem_cons.mp hx with hx | hx
        · subst hx
          exact he_rest y hy
        · exact hstart x hx y (List.mem_cons_of_mem _ hy)
      · intro y hy
        exact hwf y (List.mem_cons_of_mem _ hy)
      · rcases le_total e.stop m with h | h
        · exact ⟨f, List.mem_cons_of_mem _ hf, by rw [Nat.max_eq_left h]; exact hfm⟩
        · exact ⟨e, List.mem_cons_self _ _, (Nat.max_eq_right h).symm⟩
      · intro a' ha' b' hb'
        have hLef : Linked (e :: cluster) e f :=
          Relation.ReflTransGen.single ⟨hsub f hf, hef, hfe⟩
        have hLfe : Linked (e :: cluster) f e :=
          Relation.ReflTransGen.single ⟨List.mem_cons_self _ _, hfe, hef⟩
        rcases List.mem_cons.mp ha' with rfl | ha'c
        · rcases List.mem_cons.mp hb' with rfl | hb'c
          · exact Relation.ReflTransGen.refl
          · exact hLef.trans (linked_mono hsub (hconn f hf b' hb'c))
        · rcases List.mem_cons.mp hb' with rfl | hb'c
          · exact (linked_mono hsub (hconn a' ha'c f hf)).trans hLfe
          · exact linked_mono hsub (hconn a' ha'c b' hb'c)

/-- The long event of the transitive-chain demo: it overlaps both short
events, which do not overlap each other. -/
def demoChainA : CanonicalEvent :=
  { provider := "google", title := "All-day workshop", start := 0, stop := 10,
    myResponse := MyResponse.accepted }

/-- First short event of the transitive-chain demo. -/
def demoChainB : CanonicalEvent :=
  { provider := "google", title := "Call", start := 1, stop := 2,
    myResponse := MyResponse.accepted }

/-- Second short event of the transitive-chain demo — disjoint from
`demoChainB`. -/
def demoChainC : CanonicalEvent :=
  { provider := "microsoft", title := "Interview", start := 3, stop := 4,
    myResponse := MyResponse.accepted }

/-- **C2 (counterexample).** `find_conflicts` puts the transitive chain
`{A, B, C}` (A spans both, B and C disjoint) into one ConflictGroup, and
its members B and C do not pairwise overlap — refuting the claim that
every two members of one group satisfy
`A.start < B.end && B.start < A.end`. -/
theorem pairwise_overlap_in_group_cex :
    ∃ g ∈ findConflicts true [demoChainA, demoChainB, demoChainC],
      demoChainB ∈ g ∧ demoChainC ∈ g ∧
      ¬(demoChainB.start < demoChainC.stop ∧
        demoChainC.start < demoChainB.stop) := by
  decide

/-- **C2 (amended).** For every result of `find_conflicts` on well-formed
events (`start < end`) and all event pairs `a`, `c` placed in the same
ConflictGroup, `a` and `c` are connected within the group by a chain of
pairwise-overlapping members (transitive clustering): direct pairwise
overlap of arbitrary pairs does not hold, but every pair is linked
through overlapping intermediaries of the same group. -/
theorem conflict_group_members_chain_connected
    (b : Bool) (events : List CanonicalEvent)
    (hwf : ∀ e ∈ events, e.start < e.stop)
    (g : List CanonicalEvent) (hg : g ∈ findConflicts b events)
    (a : CanonicalEvent) (ha : a ∈ g) (c : CanonicalEvent) (hc : c ∈ g) :
    Linked g a c := by
  unfold findConflicts conflictGroups at hg
  have hg' : g ∈ clustersOf (List.insertionSort startRel (keepByPolicy b events)) :=
    List.mem_of_mem_filter hg
  have hsorted : List.Sorted startRel
      (List.insertionSort startRel (keepByPolicy b events)) :=
    List.sorted_insertionSort startRel _
  have hwf' : ∀ e ∈ List.insertionSort startRel (keepByPolicy b events),
      e.start < e.stop := by
    intro e he
    rw [List.mem_insertionSort] at he
    exact hwf e (mem_of_mem_keepByPolicy he)
  cases hs : List.insertionSort startRel (keepByPolicy b events) with
  | nil =>
    rw [hs] at hg'
    simp [clustersOf] at hg'
  | cons x rest =>
    rw [hs] at hg' hsorted hwf'
    rw [List.sorted_cons] at hsorted
    refine sweepAux_connected rest hsorted.2 [x] x.stop ?_ ?_
      ⟨x, List.mem_singleton_self x, rfl⟩ ?_ g hg' a ha c hc
    · intro t ht y hy
      rw [List.mem_singleton] at ht
      subst ht
      exact hsorted.1 y hy
    · intro y hy
      exact hwf' y (List.mem_cons_of_mem _ hy)
    · intro a' ha' b' hb'
      rw [List.mem_singleton] at ha' hb'
      subst ha'
      subst hb'
      exact Relation.ReflTransGen.refl

/-- **C2 (witness).** The amended connectivity applied at the concrete
transitive chain: the two disjoint short events are linked within their
group. -/
theorem conflict_group_members_chain_connected_witness :
    Linked [demoChainA, demoChainB, demoChainC] demoChainB demoChainC :=
  conflict_group_members_chain_connected true
    [demoChainA, demoChainB, demoChainC] (by decide)
    [demoChainA, demoChainB, demoChainC] (by decide)
    demoChainB (by decide) demoChainC (by decide)

end PAAI
